import Mathlib

/-!
Verification development for a browser-resident project board (`src/app.ts`).

The TypeScript source keeps a single observable store of project records
(`ProjectState`), notifies listener callbacks with `this.projects.slice()`
after each mutating operation, validates form input with `validate`, and
re-categorizes items through a drag-and-drop protocol
(`dragStartHandler`, `dragOverHandler`, `dragLeaveHandler`, `dropHandler`).

Because several properties of interest are about aliasing (the `slice()`
snapshot copies the array but shares the project objects), the embedding
models the JavaScript heap explicitly:

* `World.objects` is the heap of `Project` objects, addressed by index;
* `World.arrays` is the heap of arrays of object references, addressed by
  index. `ProjectState.projectsArr` is the address of the store's
  `this.projects` array.

Listener callbacks are modeled by their index in `this.listeners`; a
notification trace is the list of `(listenerIndex, snapshotArrayAddress)`
pairs produced by one `updateListeners` run, in invocation order.  The
`Math.random().toString()` draw used for ids is passed in as the `idDraw`
argument: randomness is modeled as an input stream of drawn strings.
-/

/-- `ProjectStatus` from the source: the closed category enumeration. -/
inductive ProjectStatus where
  | Active
  | Finished
deriving DecidableEq, Repr

/-- A JavaScript number as used for the `people` field: either an integer
value or `NaN`.  The claims only exercise integer values; `nan` records the
result of coercing a non-numeric string. -/
inductive JSNum where
  | int (n : Int)
  | nan
deriving DecidableEq, Repr

/-- The `Project` class: one item record.  `id` is the drawn random token,
`status` is the only field the source ever mutates after construction. -/
structure Project where
  id : String
  title : String
  description : String
  people : JSNum
  status : ProjectStatus
deriving DecidableEq, Repr

/-- The explicit JavaScript heap: project objects and arrays of object
references, each addressed by their index. -/
structure World where
  objects : List Project
  arrays : List (List Nat)
deriving DecidableEq, Repr

/-- Dereference a project object address. -/
def projAt (w : World) (a : Nat) : Option Project :=
  w.objects.get? a

/-- Allocate a fresh project object (JavaScript `new Project(...)`);
returns the new world and the fresh address. -/
def allocObject (w : World) (p : Project) : World × Nat :=
  ({ w with objects := w.objects ++ [p] }, w.objects.length)

/-- In-place mutation of the object at address `a`
(JavaScript `project.status = ...` mutates through the reference). -/
def writeObject (w : World) (a : Nat) (p : Project) : World :=
  { w with objects := w.objects.set a p }

/-- Read the array stored at address `a` (empty for a dangling address). -/
def readArray (w : World) (a : Nat) : List Nat :=
  (w.arrays.get? a).getD []

/-- Replace the contents of the array at address `a`
(in-place array mutation such as `push`). -/
def writeArray (w : World) (a : Nat) (v : List Nat) : World :=
  { w with arrays := w.arrays.set a v }

/-- Allocate a fresh array with the given contents
(JavaScript `slice()` allocates a new array); returns the fresh address. -/
def allocArray (w : World) (v : List Nat) : World × Nat :=
  ({ w with arrays := w.arrays ++ [v] }, w.arrays.length)

/-- `snapshot.push(x)`: in-place mutation of the array object at address
`a`, as an observer could perform on a delivered snapshot. -/
def arrayPush (w : World) (a : Nat) (x : Nat) : World :=
  writeArray w a (readArray w a ++ [x])

/-- `snapshot[i].status = st`: in-place mutation of the `i`-th project
record reached through the array at address `a`, as an observer could
perform on a delivered snapshot. -/
def mutateStatusViaSnapshot (w : World) (a : Nat) (i : Nat) (st : ProjectStatus) : World :=
  match (readArray w a).get? i with
  | some objAddr =>
    match projAt w objAddr with
    | some p => writeObject w objAddr { p with status := st }
    | none => w
  | none => w

/-- The `ProjectState` singleton's state: the heap, the address of
`this.projects`, and the number of registered listener callbacks
(`this.listeners.length`; callbacks are identified by their index). -/
structure ProjectState where
  world : World
  projectsArr : Nat
  numListeners : Nat
deriving DecidableEq, Repr

/-- The store state at construction time: `private projects: any[] = []`
allocates the (only) empty projects array; no listeners yet. -/
def initialState : ProjectState :=
  { world := { objects := [], arrays := [[]] }, projectsArr := 0, numListeners := 0 }

/-- `addListener` pushes a callback onto `this.listeners`; modeled by
incrementing the callback count (the new callback gets the next index). -/
def addListener (s : ProjectState) : ProjectState :=
  { s with numListeners := s.numListeners + 1 }

/-- Subscribe `n` observers in a row. -/
def subscribeN (s : ProjectState) : Nat → ProjectState
  | 0 => s
  | n + 1 => subscribeN (addListener s) n

/-- The address contents of the store's `this.projects` array. -/
def storeAddrs (s : ProjectState) : List Nat :=
  readArray s.world s.projectsArr

/-- The store's item sequence as values: dereference every address in
`this.projects`. -/
def storeProjects (s : ProjectState) : List Project :=
  (storeAddrs s).filterMap (projAt s.world)

/-- The loop body of `updateListeners`: for each of the remaining `n`
listeners, starting at index `i`, allocate a fresh snapshot array with
contents `src` (`this.projects.slice()`) and deliver it.  Returns the
world after all allocations and the delivery trace in invocation order. -/
def notifyFrom (w : World) (src : List Nat) (i : Nat) : Nat → World × List (Nat × Nat)
  | 0 => (w, [])
  | n + 1 =>
    let (w1, a) := allocArray w src
    let (w2, evs) := notifyFrom w1 src (i + 1) n
    (w2, (i, a) :: evs)

/-- `updateListeners`: synchronously invoke every registered callback in
registration order, passing each a freshly allocated `slice()` copy of
`this.projects`.  The trace records `(listenerIndex, snapshotAddress)`. -/
def updateListeners (s : ProjectState) : ProjectState × List (Nat × Nat) :=
  let r := notifyFrom s.world (readArray s.world s.projectsArr) 0 s.numListeners
  ({ s with world := r.1 }, r.2)

/-- The first half of `addProject`: construct a `new Project` with the
drawn id and status `Active` and push its reference onto `this.projects`.
This is the store state at the moment `updateListeners()` is entered. -/
def addProjectPre (s : ProjectState) (idDraw title description : String)
    (numOfPeople : JSNum) : ProjectState :=
  let r := allocObject s.world
    { id := idDraw, title := title, description := description,
      people := numOfPeople, status := ProjectStatus.Active }
  { s with world := writeArray r.1 s.projectsArr (readArray r.1 s.projectsArr ++ [r.2]) }

/-- `addProject`: construct a `new Project` with the drawn id and status
`Active`, push its reference onto `this.projects`, and run
`updateListeners`.  The `Math.random().toString()` draw is the `idDraw`
argument. -/
def addProject (s : ProjectState) (idDraw title description : String)
    (numOfPeople : JSNum) : ProjectState × List (Nat × Nat) :=
  updateListeners (addProjectPre s idDraw title description numOfPeople)

/-- `this.projects.find((prj) => prj.id === projectId)`: address of the
first project in the store's array whose id matches. -/
def findTarget (w : World) (addrs : List Nat) (projectId : String) : Option Nat :=
  addrs.find? (fun a =>
    match projAt w a with
    | some q => q.id == projectId
    | none => false)

/-- `moveProject`: find the project by id; if present and its status
differs from `newStatus`, mutate the status through the shared reference
and run `updateListeners`; otherwise do nothing and deliver nothing. -/
def moveProject (s : ProjectState) (projectId : String) (newStatus : ProjectStatus) :
    ProjectState × List (Nat × Nat) :=
  match findTarget s.world (storeAddrs s) projectId with
  | some a =>
    match projAt s.world a with
    | some p =>
      if p.status ≠ newStatus then
        updateListeners { s with world := writeObject s.world a { p with status := newStatus } }
      else
        (s, [])
    | none => (s, [])
  | none => (s, [])

/-- One `create` call's inputs: the drawn random id plus the three field
values passed to `addProject`. -/
structure CreateInput where
  idDraw : String
  title : String
  description : String
  people : JSNum
deriving DecidableEq, Repr

/-- Run a sequence of `create` calls, collecting each call's delivery
trace. -/
def runCreates (s : ProjectState) : List CreateInput → ProjectState × List (List (Nat × Nat))
  | [] => (s, [])
  | inp :: rest =>
    let r := addProject s inp.idDraw inp.title inp.description inp.people
    let r2 := runCreates r.1 rest
    (r2.1, r.2 :: r2.2)

/-- Store-state well-formedness: the `this.projects` array address is
allocated, every object reference it holds is allocated, and no reference
occurs twice (each `push` appends a freshly allocated object). -/
def WF (s : ProjectState) : Prop :=
  s.projectsArr < s.world.arrays.length ∧
  (∀ a ∈ storeAddrs s, a < s.world.objects.length) ∧
  (storeAddrs s).Nodup

instance (s : ProjectState) : Decidable (WF s) := by
  unfold WF; infer_instance

/-- The value field of a `Validatable`: the source stores either a string
or a number there. -/
inductive JSValue where
  | str (s : String)
  | num (n : JSNum)
deriving DecidableEq, Repr

/-- The `Validatable` interface.  Optional fields are `Option`; the source
guards each constraint with JavaScript truthiness, so a present-but-zero
bound is skipped exactly like an absent one. -/
structure Validatable where
  value : JSValue
  required : Bool
  minLength : Option Nat
  maxLength : Option Nat
  min : Option Int
  max : Option Int
deriving DecidableEq, Repr

/-- `String.prototype.trim`: strip leading and trailing whitespace.
Implemented over the character list so it is kernel-computable. -/
def jsTrim (s : String) : String :=
  ⟨((s.data.dropWhile Char.isWhitespace).reverse.dropWhile Char.isWhitespace).reverse⟩

/-- `value.toString()`: identity on strings; decimal rendering on integer
numbers; `"NaN"` for `NaN`. -/
def jsToString : JSValue → String
  | .str s => s
  | .num (.int n) => toString n
  | .num .nan => "NaN"

/-- `x >= m` on a JavaScript number: any comparison with `NaN` is false. -/
def jnumGe (x : JSNum) (m : Int) : Bool :=
  match x with
  | .int n => decide (n ≥ m)
  | .nan => false

/-- The `validate` function, constraint by constraint in source order.
Each guard mirrors the source's truthiness test on the constraint field
and its `typeof` test on the value.  The upper-bound branch compares with
`>=` against `max`, exactly as source line 154 does. -/
def validate (validatableInput : Validatable) : Bool :=
  let isValid := true
  let isValid :=
    if validatableInput.required then
      isValid && decide ((jsTrim (jsToString validatableInput.value)).length ≠ 0)
    else isValid
  let isValid :=
    match validatableInput.minLength, validatableInput.value with
    | some minLen, .str s =>
      if minLen ≠ 0 then isValid && decide ((jsTrim s).length ≥ minLen) else isValid
    | _, _ => isValid
  let isValid :=
    match validatableInput.maxLength, validatableInput.value with
    | some maxLen, .str s =>
      if maxLen ≠ 0 then isValid && decide ((jsTrim s).length ≤ maxLen) else isValid
    | _, _ => isValid
  let isValid :=
    match validatableInput.min, validatableInput.value with
    | some mn, .num x =>
      if mn ≠ 0 then isValid && jnumGe x mn else isValid
    | _, _ => isValid
  let isValid :=
    match validatableInput.max, validatableInput.value with
    | some mx, .num x =>
      if mx ≠ 0 then isValid && jnumGe x mx else isValid
    | _, _ => isValid
  isValid

/-- The three raw form field values read on submit. -/
structure FormFields where
  title : String
  description : String
  people : String
deriving DecidableEq, Repr

/-- `titleValidatable` from `gatherUserInput`. -/
def titleValidatable (enteredTitle : String) : Validatable :=
  { value := .str enteredTitle, required := true,
    minLength := some 5, maxLength := some 32, min := none, max := none }

/-- `descriptionValidatable` from `gatherUserInput`. -/
def descriptionValidatable (enteredDescription : String) : Validatable :=
  { value := .str enteredDescription, required := true,
    minLength := some 5, maxLength := some 180, min := none, max := none }

/-- `peopleValidatable` from `gatherUserInput`: the value is the raw input
string `enteredPeople`, not a number. -/
def peopleValidatable (enteredPeople : String) : Validatable :=
  { value := .str enteredPeople, required := true,
    minLength := none, maxLength := none, min := some 1, max := some 999 }

/-- Accumulate a decimal digit sequence; `none` on any non-digit. -/
def parseDigits (acc : Nat) : List Char → Option Nat
  | [] => some acc
  | c :: rest => if c.isDigit then parseDigits (acc * 10 + (c.toNat - 48)) rest else none

/-- Parse a non-empty decimal digit sequence. -/
def parseDigitsNE (cs : List Char) : Option Nat :=
  match cs with
  | [] => none
  | _ => parseDigits 0 cs

/-- JavaScript unary plus on a string (`+enteredPeople`): whitespace-only
strings coerce to `0`, integer-denoting strings (with an optional sign) to
their value.  Other numeric formats (fractions, exponents, hex) are
outside every claim's scope and are conservatively mapped to `nan`
together with the genuinely non-numeric strings. -/
def jsUnaryPlus (s : String) : JSNum :=
  match (jsTrim s).data with
  | [] => .int 0
  | '-' :: rest =>
    match parseDigitsNE rest with
    | some n => .int (-(n : Int))
    | none => .nan
  | '+' :: rest =>
    match parseDigitsNE rest with
    | some n => .int n
    | none => .nan
  | cs =>
    match parseDigitsNE cs with
    | some n => .int n
    | none => .nan

/-- `gatherUserInput`: validate the three fields; `none` models the
alert-and-return-void branch, `some` the returned tuple (with the people
string coerced by unary plus). -/
def gatherUserInput (f : FormFields) : Option (String × String × JSNum) :=
  if !validate (titleValidatable f.title) ||
      !validate (descriptionValidatable f.description) ||
      !validate (peopleValidatable f.people) then
    none
  else
    some (f.title, f.description, jsUnaryPlus f.people)

/-- The observable outcome of one `submitHandler` run: the store state,
the delivery trace, the input fields afterwards, and whether the blocking
alert fired. -/
structure SubmitResult where
  state : ProjectState
  events : List (Nat × Nat)
  fields : FormFields
  alerted : Bool
deriving DecidableEq, Repr

/-- `submitHandler`: gather and validate the inputs; on success call
`addProject` and `clearInputs`, otherwise leave the store and the inputs
untouched (the alert fired inside `gatherUserInput`). -/
def submitHandler (f : FormFields) (s : ProjectState) (idDraw : String) : SubmitResult :=
  match gatherUserInput f with
  | some v =>
    let r := addProject s idDraw v.1 v.2.1 v.2.2
    { state := r.1, events := r.2,
      fields := { title := "", description := "", people := "" }, alerted := false }
  | none =>
    { state := s, events := [], fields := f, alerted := true }

/-- The `DataTransfer` payload: an association of content-type tags to
string data, in the order the entries were set. -/
structure DataTransfer where
  items : List (String × String)
deriving DecidableEq, Repr

/-- `dataTransfer.types`: the content-type tags present. -/
def DataTransfer.types (dt : DataTransfer) : List String :=
  dt.items.map Prod.fst

/-- `dataTransfer.getData(fmt)`: the data stored for `fmt`, or the empty
string when no entry with that tag exists. -/
def DataTransfer.getData (dt : DataTransfer) (fmt : String) : String :=
  ((dt.items.find? (fun it => it.1 == fmt)).map Prod.snd).getD ""

/-- `dataTransfer.setData(fmt, data)`: replace the entry for `fmt` if one
exists, otherwise append a new entry. -/
def DataTransfer.setData (dt : DataTransfer) (fmt data : String) : DataTransfer :=
  if dt.items.any (fun it => it.1 == fmt) then
    ⟨dt.items.map (fun it => if it.1 == fmt then (it.1, data) else it)⟩
  else
    ⟨dt.items ++ [(fmt, data)]⟩

/-- A drag event: `dataTransfer` may be null. -/
structure DragEvent where
  dataTransfer : Option DataTransfer
deriving DecidableEq, Repr

/-- The `ProjectList` discriminator `type: "active" | "finished"`. -/
inductive ListType where
  | active
  | finished
deriving DecidableEq, Repr

/-- The ternary in `dropHandler`:
`this.type === "active" ? ProjectStatus.Active : ProjectStatus.Finished`. -/
def statusOfType : ListType → ProjectStatus
  | .active => ProjectStatus.Active
  | .finished => ProjectStatus.Finished

/-- `classList.add`: a DOM token list never holds duplicates. -/
def classListAdd (classes : List String) (cls : String) : List String :=
  if classes.contains cls then classes else classes ++ [cls]

/-- `classList.remove`. -/
def classListRemove (classes : List String) (cls : String) : List String :=
  classes.filter (fun c => c ≠ cls)

/-- `ProjectItem.dragStartHandler`: encode the dragged project's id under
the `"text/plain"` tag and set `effectAllowed` to `"move"`.  Returns the
payload and the effect string; the store is not touched. -/
def dragStartHandler (p : Project) (dt : DataTransfer) : DataTransfer × String :=
  (dt.setData "text/plain" p.id, "move")

/-- `ProjectList.dragOverHandler`: when `dataTransfer` is present and its
first listed type is `"text/plain"`, call `preventDefault` (signal
acceptance) and add the `"droppable"` class to the list element; otherwise
do nothing.  Returns (preventDefault called, store after, class list
after); the handler never touches the store. -/
def dragOverHandler (ev : DragEvent) (s : ProjectState) (classes : List String) :
    Bool × ProjectState × List String :=
  match ev.dataTransfer with
  | some dt =>
    if dt.types.head? = some "text/plain" then
      (true, s, classListAdd classes "droppable")
    else
      (false, s, classes)
  | none => (false, s, classes)

/-- `ProjectList.dragLeaveHandler`: remove the `"droppable"` class; the
store is not touched. -/
def dragLeaveHandler (s : ProjectState) (classes : List String) :
    ProjectState × List String :=
  (s, classListRemove classes "droppable")

/-- `ProjectList.dropHandler`: read the dragged id from the payload with
`getData("text/plain")` and call `moveProject` with this list's category.
The handler does not touch the list element's class list, which therefore
passes through unchanged. -/
def dropHandler (dt : DataTransfer) (t : ListType) (s : ProjectState)
    (classes : List String) : (ProjectState × List (Nat × Nat)) × List String :=
  let prjId := dt.getData "text/plain"
  (moveProject s prjId (statusOfType t), classes)

example : storeProjects (addProject (subscribeN initialState 2) "0.1" "tt" "dd" (.int 3)).1 =
    [{ id := "0.1", title := "tt", description := "dd", people := .int 3,
       status := ProjectStatus.Active }] := by decide

example : (addProject (subscribeN initialState 2) "0.1" "tt" "dd" (.int 3)).2 =
    [(0, 1), (1, 2)] := by decide

example : validate (peopleValidatable "1000") = true := by decide

example : validate (titleValidatable "abc") = false := by decide

example : validate ⟨.num (.int 5), true, none, none, some 1, some 999⟩ = false := by decide

example : validate ⟨.num (.int 1000), true, none, none, some 1, some 999⟩ = true := by decide

example : jsUnaryPlus "1000" = .int 1000 := by decide

/-- The record `addProject` constructs from one `create` call's inputs. -/
def createdProject (inp : CreateInput) : Project :=
  { id := inp.idDraw, title := inp.title, description := inp.description,
    people := inp.people, status := ProjectStatus.Active }

/-- The effect of one successful `moveProject projectId st` call on a
single item record: the matching record gets status `st`, others are
untouched. -/
def setStatusIfId (projectId : String) (st : ProjectStatus) (q : Project) : Project :=
  if q.id = projectId then { q with status := st } else q

/-- A small concrete store used to instantiate the theorems on explicit
inputs: one subscribed listener, then one `create` drawing id `"0.1"`. -/
def sampleStore : ProjectState :=
  (runCreates (subscribeN initialState 1) [⟨"0.1", "alpha", "beta", .int 1⟩]).1

/-- A reachable store in which two items share an id: two `create` calls
whose `Math.random().toString()` draws both came out `"0.5"`. -/
def dupIdStore : ProjectState :=
  (runCreates (subscribeN initialState 0)
    [⟨"0.5", "alpha", "beta", .int 1⟩, ⟨"0.5", "gamma", "delta", .int 2⟩]).1

/-! ### Basic heap lemmas -/

theorem projAt_only_objects (w w' : World) (h : w.objects = w'.objects) (a : Nat) :
    projAt w a = projAt w' a := by
  simp [projAt, h]

theorem projAt_writeObject_self (w : World) (a : Nat) (p : Project)
    (h : a < w.objects.length) : projAt (writeObject w a p) a = some p := by
  simp [projAt, writeObject, List.getElem?_set_self', List.getElem?_eq_getElem h]

theorem projAt_writeObject_ne (w : World) (a b : Nat) (p : Project) (h : b ≠ a) :
    projAt (writeObject w a p) b = projAt w b := by
  simp [projAt, writeObject, List.getElem?_set_ne (Ne.symm h)]

theorem writeObject_arrays (w : World) (a : Nat) (p : Project) :
    (writeObject w a p).arrays = w.arrays := rfl

theorem writeObject_objects_length (w : World) (a : Nat) (p : Project) :
    (writeObject w a p).objects.length = w.objects.length := by
  simp [writeObject]

theorem readArray_only_arrays (w w' : World) (h : w.arrays = w'.arrays) (a : Nat) :
    readArray w a = readArray w' a := by
  simp [readArray, h]

theorem readArray_writeArray_self (w : World) (a : Nat) (v : List Nat)
    (h : a < w.arrays.length) : readArray (writeArray w a v) a = v := by
  simp [readArray, writeArray, List.getElem?_set_self', List.getElem?_eq_getElem h]

theorem readArray_writeArray_ne (w : World) (a b : Nat) (v : List Nat) (h : b ≠ a) :
    readArray (writeArray w a v) b = readArray w b := by
  simp [readArray, writeArray, List.getElem?_set_ne (Ne.symm h)]

theorem readArray_append (w : World) (l : List (List Nat)) (a : Nat)
    (h : a < w.arrays.length) :
    readArray { w with arrays := w.arrays ++ l } a = readArray w a := by
  simp [readArray, List.getElem?_append_left h]

/-! ### `notifyFrom` characterization -/

theorem notifyFrom_objects (src : List Nat) (n : Nat) :
    ∀ (w : World) (i : Nat), (notifyFrom w src i n).1.objects = w.objects := by
  induction n with
  | zero => intro w i; rfl
  | succ m ih => intro w i; simpa [notifyFrom, allocArray] using ih _ (i + 1)

theorem notifyFrom_arrays (src : List Nat) (n : Nat) :
    ∀ (w : World) (i : Nat),
      (notifyFrom w src i n).1.arrays = w.arrays ++ List.replicate n src := by
  induction n with
  | zero => intro w i; simp [notifyFrom]
  | succ m ih =>
    intro w i
    simp only [notifyFrom, allocArray]
    rw [ih _ (i + 1)]
    simp [List.replicate_succ]

theorem notifyFrom_events (src : List Nat) (n : Nat) :
    ∀ (w : World) (i : Nat),
      (notifyFrom w src i n).2 =
        (List.range' i n).zip (List.range' w.arrays.length n) := by
  induction n with
  | zero => intro w i; simp [notifyFrom]
  | succ m ih =>
    intro w i
    simp only [notifyFrom, allocArray]
    rw [ih _ (i + 1)]
    simp [List.range'_succ, List.length_append]

/-! ### `updateListeners` characterization -/

theorem updateListeners_objects (s : ProjectState) :
    (updateListeners s).1.world.objects = s.world.objects := by
  simp [updateListeners, notifyFrom_objects]

theorem updateListeners_arrays (s : ProjectState) :
    (updateListeners s).1.world.arrays =
      s.world.arrays ++ List.replicate s.numListeners (storeAddrs s) := by
  simp [updateListeners, notifyFrom_arrays, storeAddrs]

theorem updateListeners_projectsArr (s : ProjectState) :
    (updateListeners s).1.projectsArr = s.projectsArr := rfl

theorem updateListeners_numListeners (s : ProjectState) :
    (updateListeners s).1.numListeners = s.numListeners := rfl

theorem updateListeners_events (s : ProjectState) :
    (updateListeners s).2 =
      (List.range' 0 s.numListeners).zip
        (List.range' s.world.arrays.length s.numListeners) := by
  simp [updateListeners, notifyFrom_events]

theorem updateListeners_projAt (s : ProjectState) (a : Nat) :
    projAt (updateListeners s).1.world a = projAt s.world a :=
  projAt_only_objects _ _ (updateListeners_objects s) a

theorem updateListeners_storeAddrs (s : ProjectState)
    (h : s.projectsArr < s.world.arrays.length) :
    storeAddrs (updateListeners s).1 = storeAddrs s := by
  show readArray (updateListeners s).1.world (updateListeners s).1.projectsArr = _
  rw [updateListeners_projectsArr]
  have harr := updateListeners_arrays s
  calc readArray (updateListeners s).1.world s.projectsArr
      = readArray { s.world with
          arrays := s.world.arrays ++ List.replicate s.numListeners (storeAddrs s) }
          s.projectsArr := by
        apply readArray_only_arrays
        rw [harr]
    _ = readArray s.world s.projectsArr := readArray_append _ _ _ h
    _ = storeAddrs s := rfl

theorem updateListeners_storeProjects (s : ProjectState)
    (h : s.projectsArr < s.world.arrays.length) :
    storeProjects (updateListeners s).1 = storeProjects s := by
  show (storeAddrs (updateListeners s).1).filterMap (projAt (updateListeners s).1.world) = _
  rw [updateListeners_storeAddrs s h]
  exact List.filterMap_congr (fun a _ => updateListeners_projAt s a)

/-! ### `addProject` characterization -/

theorem addProjectPre_projectsArr (s : ProjectState) (idDraw title description : String)
    (ppl : JSNum) :
    (addProjectPre s idDraw title description ppl).projectsArr = s.projectsArr := rfl

theorem addProjectPre_numListeners (s : ProjectState) (idDraw title description : String)
    (ppl : JSNum) :
    (addProjectPre s idDraw title description ppl).numListeners = s.numListeners := rfl

theorem addProjectPre_objects (s : ProjectState) (idDraw title description : String)
    (ppl : JSNum) :
    (addProjectPre s idDraw title description ppl).world.objects =
      s.world.objects ++ [createdProject ⟨idDraw, title, description, ppl⟩] := rfl

theorem addProjectPre_arrays_length (s : ProjectState) (idDraw title description : String)
    (ppl : JSNum) :
    (addProjectPre s idDraw title description ppl).world.arrays.length =
      s.world.arrays.length := by
  simp [addProjectPre, allocObject, writeArray]

theorem addProjectPre_storeAddrs (s : ProjectState) (idDraw title description : String)
    (ppl : JSNum) (h : s.projectsArr < s.world.arrays.length) :
    storeAddrs (addProjectPre s idDraw title description ppl) =
      storeAddrs s ++ [s.world.objects.length] := by
  show readArray _ _ = _
  rw [addProjectPre_projectsArr]
  unfold addProjectPre allocObject
  rw [readArray_writeArray_self _ _ _ (by simpa using h)]
  rfl

theorem addProjectPre_projAt_old (s : ProjectState) (idDraw title description : String)
    (ppl : JSNum) (a : Nat) (ha : a < s.world.objects.length) :
    projAt (addProjectPre s idDraw title description ppl).world a = projAt s.world a := by
  have h := addProjectPre_objects s idDraw title description ppl
  show (addProjectPre s idDraw title description ppl).world.objects.get? a = _
  rw [h]
  simp [projAt, List.getElem?_append_left ha]

theorem addProjectPre_projAt_new (s : ProjectState) (idDraw title description : String)
    (ppl : JSNum) :
    projAt (addProjectPre s idDraw title description ppl).world s.world.objects.length =
      some (createdProject ⟨idDraw, title, description, ppl⟩) := by
  have h := addProjectPre_objects s idDraw title description ppl
  show (addProjectPre s idDraw title description ppl).world.objects.get? _ = _
  rw [h]
  simp

theorem addProject_projectsArr (s : ProjectState) (idDraw title description : String)
    (ppl : JSNum) :
    (addProject s idDraw title description ppl).1.projectsArr = s.projectsArr := rfl

theorem addProject_numListeners (s : ProjectState) (idDraw title description : String)
    (ppl : JSNum) :
    (addProject s idDraw title description ppl).1.numListeners = s.numListeners := rfl

theorem addProject_events (s : ProjectState) (idDraw title description : String)
    (ppl : JSNum) :
    (addProject s idDraw title description ppl).2 =
      (List.range' 0 s.numListeners).zip
        (List.range' s.world.arrays.length s.numListeners) := by
  show (updateListeners _).2 = _
  rw [updateListeners_events, addProjectPre_arrays_length, addProjectPre_numListeners]

theorem addProject_events_fst (s : ProjectState) (idDraw title description : String)
    (ppl : JSNum) :
    (addProject s idDraw title description ppl).2.map Prod.fst =
      List.range s.numListeners := by
  rw [addProject_events, List.map_fst_zip _ _ (by simp), List.range_eq_range']

theorem addProject_storeAddrs (s : ProjectState) (idDraw title description : String)
    (ppl : JSNum) (h : s.projectsArr < s.world.arrays.length) :
    storeAddrs (addProject s idDraw title description ppl).1 =
      storeAddrs s ++ [s.world.objects.length] := by
  show storeAddrs (updateListeners _).1 = _
  rw [updateListeners_storeAddrs _ (by rw [addProjectPre_arrays_length]; exact h)]
  exact addProjectPre_storeAddrs s idDraw title description ppl h

theorem addProject_projAt (s : ProjectState) (idDraw title description : String)
    (ppl : JSNum) (a : Nat) :
    projAt (addProject s idDraw title description ppl).1.world a =
      projAt (addProjectPre s idDraw title description ppl).world a :=
  updateListeners_projAt _ a

theorem addProject_storeProjects (s : ProjectState) (idDraw title description : String)
    (ppl : JSNum) (hwf : WF s) :
    storeProjects (addProject s idDraw title description ppl).1 =
      storeProjects s ++ [createdProject ⟨idDraw, title, description, ppl⟩] := by
  obtain ⟨h1, h2, _⟩ := hwf
  show (storeAddrs _).filterMap _ = _
  rw [addProject_storeAddrs s idDraw title description ppl h1]
  rw [List.filterMap_append]
  congr 1
  · calc (storeAddrs s).filterMap (projAt (addProject s idDraw title description ppl).1.world)
        = (storeAddrs s).filterMap (projAt s.world) := by
          apply List.filterMap_congr
          intro a ha
          rw [addProject_projAt, addProjectPre_projAt_old _ _ _ _ _ _ (h2 a ha)]
      _ = storeProjects s := rfl
  · simp only [List.filterMap_cons, List.filterMap_nil]
    rw [addProject_projAt, addProjectPre_projAt_new]

theorem addProject_WF (s : ProjectState) (idDraw title description : String)
    (ppl : JSNum) (hwf : WF s) :
    WF (addProject s idDraw title description ppl).1 := by
  obtain ⟨h1, h2, h3⟩ := hwf
  refine ⟨?_, ?_, ?_⟩
  · show (updateListeners _).1.projectsArr < (updateListeners _).1.world.arrays.length
    rw [updateListeners_projectsArr, updateListeners_arrays, addProjectPre_projectsArr]
    calc s.projectsArr < s.world.arrays.length := h1
      _ = (addProjectPre s idDraw title description ppl).world.arrays.length :=
          (addProjectPre_arrays_length s idDraw title description ppl).symm
      _ ≤ _ := by simp
  · intro a ha
    rw [addProject_storeAddrs s idDraw title description ppl h1] at ha
    have hobj : (addProject s idDraw title description ppl).1.world.objects =
        s.world.objects ++ [createdProject ⟨idDraw, title, description, ppl⟩] := by
      show (updateListeners _).1.world.objects = _
      rw [updateListeners_objects, addProjectPre_objects]
    rw [hobj]
    simp only [List.length_append, List.length_cons, List.length_nil]
    rcases List.mem_append.mp ha with h | h
    · exact lt_of_lt_of_le (h2 a h) (by omega)
    · simp only [List.mem_singleton] at h
      omega
  · rw [addProject_storeAddrs s idDraw title description ppl h1]
    rw [List.nodup_append]
    refine ⟨h3, List.nodup_singleton _, ?_⟩
    intro a ha hmem
    simp only [List.mem_singleton] at hmem
    subst hmem
    exact absurd (h2 _ ha) (lt_irrefl _)

/-! ### `runCreates` characterization -/

theorem runCreates_spec (inputs : List CreateInput) :
    ∀ s : ProjectState, WF s →
      storeProjects (runCreates s inputs).1 =
          storeProjects s ++ inputs.map createdProject ∧
      (runCreates s inputs).2.map (fun evs => evs.map Prod.fst) =
          inputs.map (fun _ => List.range s.numListeners) ∧
      WF (runCreates s inputs).1 ∧
      (runCreates s inputs).1.numListeners = s.numListeners := by
  induction inputs with
  | nil => intro s hwf; exact ⟨by simp [runCreates], by simp [runCreates], hwf, rfl⟩
  | cons inp rest ih =>
    intro s hwf
    have hstep := addProject_storeProjects s inp.idDraw inp.title inp.description inp.people hwf
    have hWF1 := addProject_WF s inp.idDraw inp.title inp.description inp.people hwf
    have hn1 := addProject_numListeners s inp.idDraw inp.title inp.description inp.people
    obtain ⟨ihp, ihe, ihw, ihn⟩ :=
      ih (addProject s inp.idDraw inp.title inp.description inp.people).1 hWF1
    refine ⟨?_, ?_, ?_, ?_⟩
    · show storeProjects (runCreates _ rest).1 = _
      rw [ihp, hstep, List.map_cons, List.append_assoc]
      rfl
    · show ((addProject s inp.idDraw inp.title inp.description inp.people).2 ::
          (runCreates _ rest).2).map (fun evs => evs.map Prod.fst) = _
      rw [List.map_cons, ihe, addProject_events_fst, hn1, List.map_cons]
    · exact ihw
    · show (runCreates _ rest).1.numListeners = _
      rw [ihn, hn1]

/-! ### `subscribeN` and the initial state -/

theorem subscribeN_world (n : Nat) :
    ∀ s : ProjectState, (subscribeN s n).world = s.world := by
  induction n with
  | zero => intro s; rfl
  | succ m ih => intro s; exact ih (addListener s)

theorem subscribeN_projectsArr (n : Nat) :
    ∀ s : ProjectState, (subscribeN s n).projectsArr = s.projectsArr := by
  induction n with
  | zero => intro s; rfl
  | succ m ih => intro s; exact ih (addListener s)

theorem subscribeN_numListeners (n : Nat) :
    ∀ s : ProjectState, (subscribeN s n).numListeners = s.numListeners + n := by
  induction n with
  | zero => intro s; rfl
  | succ m ih =>
    intro s
    show (subscribeN (addListener s) m).numListeners = _
    rw [ih (addListener s)]
    show s.numListeners + 1 + m = s.numListeners + (m + 1)
    omega

theorem subscribeN_initial_WF (n : Nat) : WF (subscribeN initialState n) := by
  refine ⟨?_, ?_, ?_⟩
  · rw [subscribeN_projectsArr]
    show initialState.projectsArr < (subscribeN initialState n).world.arrays.length
    rw [subscribeN_world]
    decide
  · intro a ha
    show a < (subscribeN initialState n).world.objects.length
    rw [subscribeN_world]
    have : storeAddrs (subscribeN initialState n) = [] := by
      show readArray _ _ = []
      rw [subscribeN_world, subscribeN_projectsArr]
      rfl
    rw [this] at ha
    cases ha
  · have : storeAddrs (subscribeN initialState n) = [] := by
      show readArray _ _ = []
      rw [subscribeN_world, subscribeN_projectsArr]
      rfl
    rw [this]
    exact List.nodup_nil

theorem subscribeN_initial_storeProjects (n : Nat) :
    storeProjects (subscribeN initialState n) = [] := by
  show (storeAddrs _).filterMap _ = []
  have : storeAddrs (subscribeN initialState n) = [] := by
    show readArray _ _ = []
    rw [subscribeN_world, subscribeN_projectsArr]
    rfl
  rw [this]
  rfl

/-! ### `moveProject` characterization -/

theorem setStatusIfId_id (projectId : String) (st : ProjectStatus) (q : Project) :
    (setStatusIfId projectId st q).id = q.id := by
  unfold setStatusIfId
  split <;> rfl

theorem setStatusIfId_self (st : ProjectStatus) (p : Project) :
    setStatusIfId p.id st p = { p with status := st } := by
  simp [setStatusIfId]

theorem find_eq_some_unique {α : Type} (p : α → Bool) (l : List α) (a : α)
    (ha : a ∈ l) (hpa : p a = true) (uniq : ∀ b ∈ l, p b = true → b = a) :
    l.find? p = some a := by
  induction l with
  | nil => cases ha
  | cons x xs ih =>
    by_cases hx : p x = true
    · have hxa : x = a := uniq x (List.mem_cons_self x xs) hx
      rw [List.find?_cons_of_pos _ hx, hxa]
    · rw [List.find?_cons_of_neg _ hx]
      have ha' : a ∈ xs := by
        rcases List.mem_cons.mp ha with h | h
        · exact absurd (h ▸ hpa) hx
        · exact h
      exact ih ha' (fun b hb hpb => uniq b (List.mem_cons_of_mem _ hb) hpb)

theorem nodup_map_filterMap_unique {α β γ : Type} (g : α → Option β) (f : β → γ)
    (l : List α) (hl : l.Nodup) (hn : ((l.filterMap g).map f).Nodup) :
    ∀ a ∈ l, ∀ b ∈ l, ∀ q r : β, g a = some q → g b = some r → f q = f r → a = b := by
  induction l with
  | nil => intro a ha; cases ha
  | cons x xs ih =>
    have hx : x ∉ xs := (List.nodup_cons.mp hl).1
    have hxs : xs.Nodup := (List.nodup_cons.mp hl).2
    intro a ha b hb q r hq hr hfqr
    cases hgx : g x with
    | none =>
      have hn' : ((xs.filterMap g).map f).Nodup := by
        rwa [List.filterMap_cons_none hgx] at hn
      rcases List.mem_cons.mp ha with h1 | h1
      · subst h1; rw [hgx] at hq; cases hq
      · rcases List.mem_cons.mp hb with h2 | h2
        · subst h2; rw [hgx] at hr; cases hr
        · exact ih hxs hn' a h1 b h2 q r hq hr hfqr
    | some qx =>
      rw [List.filterMap_cons_some hgx, List.map_cons, List.nodup_cons] at hn
      obtain ⟨hnotin, hn'⟩ := hn
      rcases List.mem_cons.mp ha with h1 | h1
      · rcases List.mem_cons.mp hb with h2 | h2
        · rw [h1, h2]
        · exfalso
          subst h1
          rw [hgx] at hq
          injection hq with hq'
          subst hq'
          have : r ∈ xs.filterMap g := List.mem_filterMap.mpr ⟨b, h2, hr⟩
          exact hnotin (hfqr ▸ List.mem_map_of_mem f this)
      · rcases List.mem_cons.mp hb with h2 | h2
        · exfalso
          subst h2
          rw [hgx] at hr
          injection hr with hr'
          subst hr'
          have : q ∈ xs.filterMap g := List.mem_filterMap.mpr ⟨a, h1, hq⟩
          exact hnotin (hfqr ▸ List.mem_map_of_mem f this)
        · exact ih hxs hn' a h1 b h2 q r hq hr hfqr

theorem findTarget_eq (s : ProjectState) (a : Nat) (p : Project)
    (hnd : (storeAddrs s).Nodup) (hids : ((storeProjects s).map Project.id).Nodup)
    (ha : a ∈ storeAddrs s) (hp : projAt s.world a = some p) :
    findTarget s.world (storeAddrs s) p.id = some a := by
  unfold findTarget
  apply find_eq_some_unique _ _ a ha
  · simp only [hp]
    exact beq_self_eq_true p.id
  · intro b hb hpb
    simp only [] at hpb
    cases hq : projAt s.world b with
    | none => rw [hq] at hpb; cases hpb
    | some q =>
      rw [hq] at hpb
      have hqid : q.id = p.id := beq_iff_eq.mp hpb
      exact nodup_map_filterMap_unique (projAt s.world) Project.id (storeAddrs s)
        hnd hids b hb a ha q p hq hp hqid

theorem filterMap_writeObject_map (w : World) (addrs : List Nat) (a : Nat) (p : Project)
    (c : ProjectStatus) (hlen : a < w.objects.length) (hp : projAt w a = some p)
    (hother : ∀ b ∈ addrs, b ≠ a → ∀ q, projAt w b = some q → q.id ≠ p.id) :
    addrs.filterMap (projAt (writeObject w a { p with status := c })) =
      (addrs.filterMap (projAt w)).map (setStatusIfId p.id c) := by
  induction addrs with
  | nil => rfl
  | cons b rest ih =>
    have tail := ih (fun x hx => hother x (List.mem_cons_of_mem _ hx))
    by_cases hb : b = a
    · subst hb
      rw [List.filterMap_cons_some (projAt_writeObject_self w b _ hlen),
        List.filterMap_cons_some hp, List.map_cons, setStatusIfId_self, tail]
    · cases hq : projAt w b with
      | none =>
        have hq' : projAt (writeObject w a { p with status := c }) b = none := by
          rw [projAt_writeObject_ne w a b _ hb]; exact hq
        rw [List.filterMap_cons_none hq', List.filterMap_cons_none hq, tail]
      | some q =>
        have hqid : q.id ≠ p.id := hother b (List.mem_cons_self _ _) hb q hq
        have hq' : projAt (writeObject w a { p with status := c }) b = some q := by
          rw [projAt_writeObject_ne w a b _ hb]; exact hq
        rw [List.filterMap_cons_some hq', List.filterMap_cons_some hq, List.map_cons, tail]
        congr 1
        simp [setStatusIfId, hqid]

theorem moveProject_absent (s : ProjectState) (projectId : String) (c : ProjectStatus)
    (h : ∀ q ∈ storeProjects s, q.id ≠ projectId) :
    moveProject s projectId c = (s, []) := by
  have hfind : findTarget s.world (storeAddrs s) projectId = none := by
    unfold findTarget
    rw [List.find?_eq_none]
    intro b hb
    cases hq : projAt s.world b with
    | none => simp [hq]
    | some q =>
      have : q ∈ storeProjects s := List.mem_filterMap.mpr ⟨b, hb, hq⟩
      simp [hq, h q this]
  unfold moveProject
  rw [hfind]

theorem moveProject_noop (s : ProjectState) (a : Nat) (p : Project) (c : ProjectStatus)
    (hnd : (storeAddrs s).Nodup) (hids : ((storeProjects s).map Project.id).Nodup)
    (ha : a ∈ storeAddrs s) (hp : projAt s.world a = some p) (heq : p.status = c) :
    moveProject s p.id c = (s, []) := by
  have hfind := findTarget_eq s a p hnd hids ha hp
  unfold moveProject
  rw [hfind]
  simp [hp, heq]

theorem moveProject_move_eq (s : ProjectState) (a : Nat) (p : Project) (c : ProjectStatus)
    (hnd : (storeAddrs s).Nodup) (hids : ((storeProjects s).map Project.id).Nodup)
    (ha : a ∈ storeAddrs s) (hp : projAt s.world a = some p) (hne : p.status ≠ c) :
    moveProject s p.id c =
      updateListeners { s with world := writeObject s.world a { p with status := c } } := by
  have hfind := findTarget_eq s a p hnd hids ha hp
  unfold moveProject
  rw [hfind]
  simp [hp, hne]

theorem updateListeners_WF (s : ProjectState) (hwf : WF s) : WF (updateListeners s).1 := by
  obtain ⟨h1, h2, h3⟩ := hwf
  refine ⟨?_, ?_, ?_⟩
  · rw [updateListeners_projectsArr, updateListeners_arrays]
    calc s.projectsArr < s.world.arrays.length := h1
      _ ≤ (s.world.arrays ++ List.replicate s.numListeners (storeAddrs s)).length := by simp
  · intro b hb
    rw [updateListeners_storeAddrs s h1] at hb
    rw [show (updateListeners s).1.world.objects = s.world.objects from updateListeners_objects s]
    exact h2 b hb
  · rw [updateListeners_storeAddrs s h1]
    exact h3

theorem moveProject_spec (s : ProjectState) (a : Nat) (p : Project) (c : ProjectStatus)
    (hwf : WF s) (hids : ((storeProjects s).map Project.id).Nodup)
    (ha : a ∈ storeAddrs s) (hp : projAt s.world a = some p) (hne : p.status ≠ c) :
    storeProjects (moveProject s p.id c).1 =
        (storeProjects s).map (setStatusIfId p.id c) ∧
    (moveProject s p.id c).2.map Prod.fst = List.range s.numListeners ∧
    (moveProject s p.id c).1.numListeners = s.numListeners ∧
    WF (moveProject s p.id c).1 ∧
    moveProject (moveProject s p.id c).1 p.id c = ((moveProject s p.id c).1, []) := by
  obtain ⟨h1, h2, h3⟩ := hwf
  have hlen : a < s.world.objects.length := h2 a ha
  have hmv := moveProject_move_eq s a p c h3 hids ha hp hne
  have hs1addrs : storeAddrs { s with world := writeObject s.world a { p with status := c } } =
      storeAddrs s := rfl
  have hother : ∀ b ∈ storeAddrs s, b ≠ a → ∀ q, projAt s.world b = some q → q.id ≠ p.id := by
    intro b hb hbne q hq hqid
    exact hbne (nodup_map_filterMap_unique (projAt s.world) Project.id (storeAddrs s)
      h3 hids b hb a ha q p hq hp hqid)
  have hwf1 : WF { s with world := writeObject s.world a { p with status := c } } := by
    refine ⟨h1, ?_, h3⟩
    intro b hb
    rw [show (writeObject s.world a { p with status := c }).objects.length =
      s.world.objects.length from writeObject_objects_length s.world a _]
    exact h2 b hb
  have hsp1 : storeProjects { s with world := writeObject s.world a { p with status := c } } =
      (storeProjects s).map (setStatusIfId p.id c) := by
    show (storeAddrs _).filterMap _ = _
    rw [hs1addrs]
    exact filterMap_writeObject_map s.world (storeAddrs s) a p c hlen hp hother
  have hpsp : storeProjects (moveProject s p.id c).1 =
      (storeProjects s).map (setStatusIfId p.id c) := by
    rw [hmv,
      updateListeners_storeProjects
        { s with world := writeObject s.world a { p with status := c } } h1, hsp1]
  have hpaddrs : storeAddrs (moveProject s p.id c).1 = storeAddrs s := by
    rw [hmv,
      updateListeners_storeAddrs
        { s with world := writeObject s.world a { p with status := c } } h1, hs1addrs]
  refine ⟨hpsp, ?_, ?_, ?_, ?_⟩
  · rw [hmv, updateListeners_events, List.map_fst_zip _ _ (by simp), List.range_eq_range']
  · rw [hmv, updateListeners_numListeners]
  · rw [hmv]
    exact updateListeners_WF _ hwf1
  · have hids' : ((storeProjects (moveProject s p.id c).1).map Project.id).Nodup := by
      rw [hpsp, List.map_map]
      have : (Project.id ∘ setStatusIfId p.id c) = Project.id := by
        funext q
        exact setStatusIfId_id p.id c q
      rw [this]
      exact hids
    have ha' : a ∈ storeAddrs (moveProject s p.id c).1 := by rw [hpaddrs]; exact ha
    have hp' : projAt (moveProject s p.id c).1.world a = some { p with status := c } := by
      rw [hmv, updateListeners_projAt]
      exact projAt_writeObject_self s.world a _ hlen
    have hnd' : (storeAddrs (moveProject s p.id c).1).Nodup := by rw [hpaddrs]; exact h3
    exact moveProject_noop (moveProject s p.id c).1 a { p with status := c } c
      hnd' hids' ha' hp' rfl

/-! ### Snapshot freshness and aliasing lemmas -/

theorem readArray_append_replicate (w : World) (src : List Nat) (n : Nat) (b : Nat)
    (hb1 : w.arrays.length ≤ b) (hb2 : b < w.arrays.length + n) :
    readArray { w with arrays := w.arrays ++ List.replicate n src } b = src := by
  unfold readArray
  show ((w.arrays ++ List.replicate n src).get? b).getD [] = src
  rw [List.get?_eq_getElem?]
  rw [List.getElem?_append_right hb1, List.getElem?_replicate]
  rw [if_pos (by omega)]
  rfl

theorem addProject_event_snd_bounds (s : ProjectState) (idDraw title description : String)
    (ppl : JSNum) (ev : Nat × Nat) (hev : ev ∈ (addProject s idDraw title description ppl).2) :
    s.world.arrays.length ≤ ev.2 ∧ ev.2 < s.world.arrays.length + s.numListeners := by
  rw [addProject_events] at hev
  have h2 := (List.of_mem_zip hev).2
  exact List.mem_range'_1.mp h2

theorem addProject_events_snd (s : ProjectState) (idDraw title description : String)
    (ppl : JSNum) :
    (addProject s idDraw title description ppl).2.map Prod.snd =
      List.range' s.world.arrays.length s.numListeners := by
  rw [addProject_events, List.map_snd_zip _ _ (by simp)]

theorem addProject_events_snd_nodup (s : ProjectState) (idDraw title description : String)
    (ppl : JSNum) :
    ((addProject s idDraw title description ppl).2.map Prod.snd).Nodup := by
  rw [addProject_events_snd]
  exact List.nodup_range' _ _

theorem addProject_snapshot_contents (s : ProjectState) (idDraw title description : String)
    (ppl : JSNum) (h : s.projectsArr < s.world.arrays.length)
    (ev : Nat × Nat) (hev : ev ∈ (addProject s idDraw title description ppl).2) :
    readArray (addProject s idDraw title description ppl).1.world ev.2 =
      storeAddrs (addProject s idDraw title description ppl).1 := by
  obtain ⟨hb1, hb2⟩ := addProject_event_snd_bounds s idDraw title description ppl ev hev
  have hpre : (addProjectPre s idDraw title description ppl).projectsArr <
      (addProjectPre s idDraw title description ppl).world.arrays.length := by
    rw [addProjectPre_arrays_length]
    exact h
  have harr := updateListeners_arrays (addProjectPre s idDraw title description ppl)
  have hL := addProjectPre_arrays_length s idDraw title description ppl
  have hread : readArray (addProject s idDraw title description ppl).1.world ev.2 =
      storeAddrs (addProjectPre s idDraw title description ppl) := by
    have hcast : readArray (addProject s idDraw title description ppl).1.world ev.2 =
        readArray { (addProjectPre s idDraw title description ppl).world with
          arrays := (addProjectPre s idDraw title description ppl).world.arrays ++
            List.replicate (addProjectPre s idDraw title description ppl).numListeners
              (storeAddrs (addProjectPre s idDraw title description ppl)) } ev.2 := by
      apply readArray_only_arrays
      exact harr
    rw [hcast]
    apply readArray_append_replicate
    · rw [hL]; exact hb1
    · rw [hL, addProjectPre_numListeners]; exact hb2
  rw [hread]
  show storeAddrs (addProjectPre s idDraw title description ppl) =
    storeAddrs (updateListeners (addProjectPre s idDraw title description ppl)).1
  rw [updateListeners_storeAddrs _ hpre]

theorem addProject_event_snd_ne_store (s : ProjectState) (idDraw title description : String)
    (ppl : JSNum) (h : s.projectsArr < s.world.arrays.length)
    (ev : Nat × Nat) (hev : ev ∈ (addProject s idDraw title description ppl).2) :
    ev.2 ≠ (addProject s idDraw title description ppl).1.projectsArr := by
  obtain ⟨hb1, _⟩ := addProject_event_snd_bounds s idDraw title description ppl ev hev
  rw [addProject_projectsArr]
  omega

/-! ### Claim theorems -/

/-- C1 counterexample: the id of a created item is exactly the
`Math.random().toString()` draw, and nothing in `addProject` prevents two
draws from coinciding.  In the run where both draws are `"0.5"`, the two
created items carry the same id, refuting the claim that every created
item's id is distinct from all previously created items' ids. -/
theorem C1_counterexample :
    ¬ ((storeProjects (runCreates (subscribeN initialState 0)
        [⟨"0.5", "alpha", "beta", .int 1⟩, ⟨"0.5", "gamma", "delta", .int 2⟩]).1).map
          Project.id).Nodup := by
  decide

/-- C1 (amended): for every number of subscribed observers and every
sequence of `create` calls from the initial store, the snapshot equals
the created records in call order (so its length is the number of calls,
every record has status `Active`, and each call appended at the end),
each call delivered one notification to every listener in subscription
order, and each created item's id equals that call's random draw — so the
ids are distinct exactly when the draws are. -/
theorem C1_creates_build_store (n : Nat) (inputs : List CreateInput) :
    storeProjects (runCreates (subscribeN initialState n) inputs).1 =
        inputs.map createdProject ∧
    (runCreates (subscribeN initialState n) inputs).2.map (fun evs => evs.map Prod.fst) =
        inputs.map (fun _ => List.range n) ∧
    (storeProjects (runCreates (subscribeN initialState n) inputs).1).map Project.id =
        inputs.map CreateInput.idDraw := by
  obtain ⟨hp, he, _, _⟩ :=
    runCreates_spec inputs (subscribeN initialState n) (subscribeN_initial_WF n)
  have hsp : storeProjects (runCreates (subscribeN initialState n) inputs).1 =
      inputs.map createdProject := by
    rw [hp, subscribeN_initial_storeProjects]
    rfl
  refine ⟨hsp, ?_, ?_⟩
  · have hnum : (subscribeN initialState n).numListeners = n := by
      rw [subscribeN_numListeners]
      exact Nat.zero_add n
    rw [he, hnum]
  · rw [hsp, List.map_map]
    rfl

/-- C2 counterexample: the claim quantifies over every item present in
the Store, but `moveProject` retargets the first item whose id matches
(line 92).  In the reachable store built by two creates whose random
draws collided on `"0.5"`, the second item (`"gamma"`) is present with id
`"0.5"`, yet after `recategorize("0.5", Finished)` the snapshot still
shows it with category `Active` — only the first match (`"alpha"`) moved
— refuting the claim as stated. -/
theorem C2_counterexample :
    Project.mk "0.5" "gamma" "delta" (.int 2) ProjectStatus.Active ∈
        storeProjects dupIdStore ∧
    storeProjects (moveProject dupIdStore "0.5" ProjectStatus.Finished).1 =
      [Project.mk "0.5" "alpha" "beta" (.int 1) ProjectStatus.Finished,
       Project.mk "0.5" "gamma" "delta" (.int 2) ProjectStatus.Active] ∧
    Project.mk "0.5" "gamma" "delta" (.int 2) ProjectStatus.Finished ∉
        storeProjects (moveProject dupIdStore "0.5" ProjectStatus.Finished).1 := by
  decide

/-- C2 (amended): when the Store's items carry pairwise-distinct ids —
the situation the claim implicitly presupposes by identifying `i` through
`i.id`, and the one `moveProject`'s find-first lookup handles as intended
— recategorizing a present item to a different category `c` makes the
snapshot show that item with category `c` (and only that item changed),
delivers one notification round — each listener once, in order — and an
immediately repeated call with the same `c` returns the state unchanged
with zero notifications. -/
theorem C2_recategorize_present (s : ProjectState) (a : Nat) (p : Project) (c : ProjectStatus)
    (hwf : WF s) (hids : ((storeProjects s).map Project.id).Nodup)
    (ha : a ∈ storeAddrs s) (hp : projAt s.world a = some p) (hne : p.status ≠ c) :
    { p with status := c } ∈ storeProjects (moveProject s p.id c).1 ∧
    storeProjects (moveProject s p.id c).1 = (storeProjects s).map (setStatusIfId p.id c) ∧
    (moveProject s p.id c).2.map Prod.fst = List.range s.numListeners ∧
    (moveProject s p.id c).1.numListeners = s.numListeners ∧
    moveProject (moveProject s p.id c).1 p.id c = ((moveProject s p.id c).1, []) := by
  obtain ⟨h1, h2, h3, _, h5⟩ := moveProject_spec s a p c hwf hids ha hp hne
  refine ⟨?_, h1, h2, h3, h5⟩
  rw [h1, ← setStatusIfId_self c p]
  exact List.mem_map_of_mem _ (List.mem_filterMap.mpr ⟨a, ha, hp⟩)

theorem C2_witness :
    Project.mk "0.1" "alpha" "beta" (.int 1) ProjectStatus.Finished ∈
        storeProjects (moveProject sampleStore "0.1" ProjectStatus.Finished).1 ∧
    storeProjects (moveProject sampleStore "0.1" ProjectStatus.Finished).1 =
        (storeProjects sampleStore).map (setStatusIfId "0.1" ProjectStatus.Finished) ∧
    (moveProject sampleStore "0.1" ProjectStatus.Finished).2.map Prod.fst = List.range 1 ∧
    (moveProject sampleStore "0.1" ProjectStatus.Finished).1.numListeners = 1 ∧
    moveProject (moveProject sampleStore "0.1" ProjectStatus.Finished).1 "0.1"
        ProjectStatus.Finished =
      ((moveProject sampleStore "0.1" ProjectStatus.Finished).1, []) :=
  C2_recategorize_present sampleStore 0 (Project.mk "0.1" "alpha" "beta" (.int 1)
    ProjectStatus.Active) ProjectStatus.Finished (by decide) (by decide) (by decide)
    (by decide) (by decide)

/-- C3: recategorizing an id that no item in the store carries returns
the state unchanged and delivers zero notifications — a silent no-op. -/
theorem C3_recategorize_absent (s : ProjectState) (projectId : String) (c : ProjectStatus)
    (h : ∀ q ∈ storeProjects s, q.id ≠ projectId) :
    moveProject s projectId c = (s, []) :=
  moveProject_absent s projectId c h

theorem C3_witness :
    moveProject sampleStore "0.99" ProjectStatus.Finished = (sampleStore, []) :=
  C3_recategorize_absent sampleStore "0.99" ProjectStatus.Finished (by decide)

/-- C4: one `create` delivers exactly one callback invocation per
registered listener, in subscription order; the snapshot array delivered
to each listener is freshly allocated (pairwise distinct addresses, all
distinct from the store's own array) and holds exactly the store's
post-mutation sequence. -/
theorem C4_notification_fanout (s : ProjectState) (idDraw title description : String)
    (ppl : JSNum) (h : s.projectsArr < s.world.arrays.length) :
    (addProject s idDraw title description ppl).2.map Prod.fst =
        List.range s.numListeners ∧
    ((addProject s idDraw title description ppl).2.map Prod.snd).Nodup ∧
    (∀ ev ∈ (addProject s idDraw title description ppl).2,
      ev.2 ≠ (addProject s idDraw title description ppl).1.projectsArr ∧
      readArray (addProject s idDraw title description ppl).1.world ev.2 =
        storeAddrs (addProject s idDraw title description ppl).1) := by
  refine ⟨addProject_events_fst s idDraw title description ppl,
    addProject_events_snd_nodup s idDraw title description ppl, ?_⟩
  intro ev hev
  exact ⟨addProject_event_snd_ne_store s idDraw title description ppl h ev hev,
    addProject_snapshot_contents s idDraw title description ppl h ev hev⟩

theorem C4_witness :
    (addProject (subscribeN initialState 2) "0.3" "tt" "dd" (.int 2)).2.map Prod.fst =
        List.range 2 ∧
    (((addProject (subscribeN initialState 2) "0.3" "tt" "dd" (.int 2)).2.map Prod.snd).Nodup) ∧
    ((1 : Nat) ≠ (addProject (subscribeN initialState 2) "0.3" "tt" "dd"
        (.int 2)).1.projectsArr ∧
      readArray (addProject (subscribeN initialState 2) "0.3" "tt" "dd" (.int 2)).1.world 1 =
        storeAddrs (addProject (subscribeN initialState 2) "0.3" "tt" "dd" (.int 2)).1) := by
  have h := C4_notification_fanout (subscribeN initialState 2) "0.3" "tt" "dd" (.int 2)
    (by decide)
  exact ⟨h.1, h.2.1, h.2.2 (0, 1) (by decide)⟩

/-- C5 counterexample: `updateListeners` passes `this.projects.slice()`, a
shallow copy.  In the concrete run below, the single delivered snapshot is
the fresh array at address 1, whose contents alias the store's item
records; mutating the first record through that snapshot changes the
store's own visible sequence, refuting the claim that snapshots are fully
independent copies. -/
theorem C5_counterexample :
    (addProject (subscribeN initialState 1) "0.1" "tt" "dd" (.int 3)).2 = [(0, 1)] ∧
    readArray (addProject (subscribeN initialState 1) "0.1" "tt" "dd" (.int 3)).1.world 1 =
      storeAddrs (addProject (subscribeN initialState 1) "0.1" "tt" "dd" (.int 3)).1 ∧
    storeProjects { (addProject (subscribeN initialState 1) "0.1" "tt" "dd" (.int 3)).1 with
        world := mutateStatusViaSnapshot
          (addProject (subscribeN initialState 1) "0.1" "tt" "dd" (.int 3)).1.world 1 0
          ProjectStatus.Finished } ≠
      storeProjects (addProject (subscribeN initialState 1) "0.1" "tt" "dd" (.int 3)).1 := by
  decide

/-- C5 (amended): each delivered snapshot is independent at the sequence
level — it is a freshly allocated array, distinct from the store's array
and from every other delivered snapshot, so mutating a snapshot array
itself (e.g. `push`) changes neither the store's sequence nor any other
snapshot — but `slice()` is shallow: the snapshot holds the same item
record references as the store's sequence, so in-place mutation of a
record through a snapshot is visible to the store and to every other
snapshot. -/
theorem C5_snapshot_shallow_copy (s : ProjectState) (idDraw title description : String)
    (ppl : JSNum) (h : s.projectsArr < s.world.arrays.length) :
    (∀ ev ∈ (addProject s idDraw title description ppl).2,
      ev.2 ≠ (addProject s idDraw title description ppl).1.projectsArr ∧
      (∀ x, readArray
          (arrayPush (addProject s idDraw title description ppl).1.world ev.2 x)
          (addProject s idDraw title description ppl).1.projectsArr =
        readArray (addProject s idDraw title description ppl).1.world
          (addProject s idDraw title description ppl).1.projectsArr) ∧
      readArray (addProject s idDraw title description ppl).1.world ev.2 =
        storeAddrs (addProject s idDraw title description ppl).1) ∧
    (∀ ev ∈ (addProject s idDraw title description ppl).2,
      ∀ ev' ∈ (addProject s idDraw title description ppl).2, ev ≠ ev' →
      ∀ x, readArray
          (arrayPush (addProject s idDraw title description ppl).1.world ev.2 x) ev'.2 =
        readArray (addProject s idDraw title description ppl).1.world ev'.2) := by
  constructor
  · intro ev hev
    have hne := addProject_event_snd_ne_store s idDraw title description ppl h ev hev
    refine ⟨hne, ?_, addProject_snapshot_contents s idDraw title description ppl h ev hev⟩
    intro x
    exact readArray_writeArray_ne _ _ _ _ (Ne.symm hne)
  · intro ev hev ev' hev' hnee x
    have hsne : ev'.2 ≠ ev.2 := by
      intro hc
      exact hnee (List.inj_on_of_nodup_map
        (addProject_events_snd_nodup s idDraw title description ppl) hev hev' hc.symm)
    exact readArray_writeArray_ne _ _ _ _ hsne

theorem C5_witness :
    (0, 1) ∈ (addProject (subscribeN initialState 2) "0.3" "tt" "dd" (.int 2)).2 ∧
    (readArray
        (arrayPush (addProject (subscribeN initialState 2) "0.3" "tt" "dd" (.int 2)).1.world
          1 99)
        (addProject (subscribeN initialState 2) "0.3" "tt" "dd" (.int 2)).1.projectsArr =
      readArray (addProject (subscribeN initialState 2) "0.3" "tt" "dd" (.int 2)).1.world
        (addProject (subscribeN initialState 2) "0.3" "tt" "dd" (.int 2)).1.projectsArr) ∧
    readArray
        (arrayPush (addProject (subscribeN initialState 2) "0.3" "tt" "dd" (.int 2)).1.world
          1 99) 2 =
      readArray (addProject (subscribeN initialState 2) "0.3" "tt" "dd" (.int 2)).1.world 2 := by
  have h := C5_snapshot_shallow_copy (subscribeN initialState 2) "0.3" "tt" "dd" (.int 2)
    (by decide)
  exact ⟨by decide, (h.1 (0, 1) (by decide)).2.1 99,
    h.2 (0, 1) (by decide) (1, 2) (by decide) (by decide) 99⟩

/-- C6: the claim says a numeric value `v` checked against
`{required: true, min: a, max: b}` passes iff `a ≤ v ≤ b`.  The source's
upper-bound branch (line 154) tests `value >= max`, so with the form's
bounds `min = 1, max = 999` the code rejects `5` (which the claim accepts)
and accepts `1000` (which the claim rejects).  This theorem evaluates the
code at both failing inputs, exhibiting the divergence. -/
theorem C6_upper_bound_code_bug :
    validate ⟨.num (.int 5), true, none, none, some 1, some 999⟩ = false ∧
    (1 : Int) ≤ 5 ∧ (5 : Int) ≤ 999 ∧
    validate ⟨.num (.int 1000), true, none, none, some 1, some 999⟩ = true ∧
    ¬ ((1000 : Int) ≤ 999) := by
  decide

/-- C7 counterexample: the handler tests `dataTransfer.types[0]`, not
membership.  A payload that carries the `"text/plain"` tag in second
position has the tag, yet the handler neither signals acceptance nor
applies the affordance, refuting the claim as stated. -/
theorem C7_counterexample :
    "text/plain" ∈ (DataTransfer.mk [("text/html", "x"), ("text/plain", "0.1")]).types ∧
    dragOverHandler ⟨some ⟨[("text/html", "x"), ("text/plain", "0.1")]⟩⟩ initialState [] =
      (false, initialState, []) := by
  decide

/-- C7 (amended): when the payload's FIRST listed content type is
`"text/plain"`, the drag-over handler signals acceptance (calls
`preventDefault`) and adds the `"droppable"` class; when the payload
carries no `"text/plain"` entry at all, the handler does nothing, and a
forced drop reads the empty string from `getData` and mutates nothing —
provided no stored item has the empty id, which holds for every id drawn
from `Math.random().toString()`. -/
theorem C7_dragover_gate (dt : DataTransfer) (s : ProjectState) (classes : List String)
    (t : ListType) :
    (dt.types.head? = some "text/plain" →
      dragOverHandler ⟨some dt⟩ s classes = (true, s, classListAdd classes "droppable")) ∧
    ("text/plain" ∉ dt.types →
      dragOverHandler ⟨some dt⟩ s classes = (false, s, classes) ∧
      ((∀ q ∈ storeProjects s, q.id ≠ "") →
        dropHandler dt t s classes = ((s, []), classes))) := by
  constructor
  · intro hh
    simp [dragOverHandler, hh]
  · intro hmem
    have hh : ¬ (dt.types.head? = some "text/plain") := by
      intro hc
      exact hmem (List.mem_of_mem_head? hc)
    refine ⟨by simp [dragOverHandler, hh], ?_⟩
    intro hid
    have hfind : dt.items.find? (fun it => it.1 == "text/plain") = none := by
      rw [List.find?_eq_none]
      intro it hit hbe
      apply hmem
      have h1 : it.1 = "text/plain" := beq_iff_eq.mp hbe
      have h2 : it.1 ∈ dt.types := List.mem_map_of_mem Prod.fst hit
      rwa [h1] at h2
    have hget : dt.getData "text/plain" = "" := by
      unfold DataTransfer.getData
      rw [hfind]
      rfl
    show (moveProject s (dt.getData "text/plain") (statusOfType t), classes) = ((s, []), classes)
    rw [hget, moveProject_absent s "" (statusOfType t) hid]

theorem C7_witness :
    dragOverHandler ⟨some ⟨[("text/plain", "0.1")]⟩⟩ initialState [] =
      (true, initialState, ["droppable"]) ∧
    dragOverHandler ⟨some ⟨[("text/html", "x")]⟩⟩ sampleStore [] =
      (false, sampleStore, []) ∧
    dropHandler ⟨[("text/html", "x")]⟩ ListType.finished sampleStore [] =
      ((sampleStore, []), []) := by
  have h1 := (C7_dragover_gate ⟨[("text/plain", "0.1")]⟩ initialState [] ListType.finished).1
  have h2 := (C7_dragover_gate ⟨[("text/html", "x")]⟩ sampleStore [] ListType.finished).2
  exact ⟨h1 (by decide), (h2 (by decide)).1, (h2 (by decide)).2 (by decide)⟩

/-- C8 counterexample: the drop handler issues the recategorization but
does not touch the list element's class list; after a successful drop the
`"droppable"` affordance is still present, refuting the claim's assertion
that the drop handler removes it (removal happens only in
`dragLeaveHandler`). -/
theorem C8_counterexample :
    "droppable" ∈ (dropHandler ⟨[("text/plain", "0.1")]⟩ ListType.finished sampleStore
        ["droppable"]).2 ∧
    storeProjects ((dropHandler ⟨[("text/plain", "0.1")]⟩ ListType.finished sampleStore
        ["droppable"]).1).1 =
      [Project.mk "0.1" "alpha" "beta" (.int 1) ProjectStatus.Finished] := by
  decide

/-- C8 (amended): the drop handler extracts the dragged id with
`getData("text/plain")` and passes it to `moveProject` together with the
target list's own category — the only store mutation in the drag
protocol: the drag-over and drag-leave handlers leave the store untouched.
The handler does not remove the `"droppable"` affordance; the class list
passes through unchanged (removal is `dragLeaveHandler`'s job). -/
theorem C8_drop_recategorizes (dt : DataTransfer) (t : ListType) (s : ProjectState)
    (classes : List String) (a : Nat) (p : Project)
    (hwf : WF s) (hids : ((storeProjects s).map Project.id).Nodup)
    (ha : a ∈ storeAddrs s) (hp : projAt s.world a = some p)
    (hid : dt.getData "text/plain" = p.id) (hne : p.status ≠ statusOfType t) :
    dropHandler dt t s classes =
        (moveProject s (dt.getData "text/plain") (statusOfType t), classes) ∧
    storeProjects ((dropHandler dt t s classes).1).1 =
        (storeProjects s).map (setStatusIfId p.id (statusOfType t)) ∧
    { p with status := statusOfType t } ∈ storeProjects ((dropHandler dt t s classes).1).1 ∧
    (dropHandler dt t s classes).2 = classes ∧
    (∀ ev s2 classes2, (dragOverHandler ev s2 classes2).2.1 = s2) ∧
    (∀ s2 classes2, (dragLeaveHandler s2 classes2).1 = s2) := by
  obtain ⟨h1, _, _, _, _⟩ := moveProject_spec s a p (statusOfType t) hwf hids ha hp hne
  have hsp : storeProjects ((dropHandler dt t s classes).1).1 =
      (storeProjects s).map (setStatusIfId p.id (statusOfType t)) := by
    show storeProjects (moveProject s (dt.getData "text/plain") (statusOfType t)).1 = _
    rw [hid]
    exact h1
  refine ⟨rfl, hsp, ?_, rfl, ?_, fun s2 c2 => rfl⟩
  · rw [hsp, ← setStatusIfId_self (statusOfType t) p]
    exact List.mem_map_of_mem _ (List.mem_filterMap.mpr ⟨a, ha, hp⟩)
  · intro ev s2 classes2
    rcases ev with ⟨odt⟩
    cases odt with
    | none => rfl
    | some d =>
      by_cases hd : d.types.head? = some "text/plain" <;> simp [dragOverHandler, hd]

theorem C8_witness :
    dropHandler ⟨[("text/plain", "0.1")]⟩ ListType.finished sampleStore ["droppable"] =
      (moveProject sampleStore "0.1" ProjectStatus.Finished, ["droppable"]) ∧
    (dropHandler ⟨[("text/plain", "0.1")]⟩ ListType.finished sampleStore ["droppable"]).2 =
      ["droppable"] ∧
    (dragOverHandler ⟨none⟩ sampleStore []).2.1 = sampleStore ∧
    (dragLeaveHandler sampleStore ["droppable"]).1 = sampleStore := by
  have h := C8_drop_recategorizes ⟨[("text/plain", "0.1")]⟩ ListType.finished sampleStore
    ["droppable"] 0 (Project.mk "0.1" "alpha" "beta" (.int 1) ProjectStatus.Active)
    (by decide) (by decide) (by decide) (by decide) (by decide) (by decide)
  exact ⟨h.1, h.2.2.2.1, h.2.2.2.2.1 ⟨none⟩ sampleStore [], h.2.2.2.2.2 sampleStore ["droppable"]⟩

/-- C9: when any of the three fields fails its `validate` check, the
submit handler raises the blocking alert, never calls `addProject` (so
the store and its snapshot are untouched and no notification is
delivered), and leaves the input field values as they were. -/
theorem C9_validation_failure (f : FormFields) (s : ProjectState) (idDraw : String)
    (h : validate (titleValidatable f.title) = false ∨
      validate (descriptionValidatable f.description) = false ∨
      validate (peopleValidatable f.people) = false) :
    submitHandler f s idDraw = SubmitResult.mk s [] f true := by
  have hg : gatherUserInput f = none := by
    unfold gatherUserInput
    rcases h with h | h | h <;> simp [h]
  unfold submitHandler
  rw [hg]

theorem C9_witness :
    submitHandler (FormFields.mk "abc" "valid description" "3") sampleStore "0.7" =
      SubmitResult.mk sampleStore [] (FormFields.mk "abc" "valid description" "3") true :=
  C9_validation_failure (FormFields.mk "abc" "valid description" "3") sampleStore "0.7"
    (Or.inl (by decide))

/-- C10: `peopleValidatable.value` is the raw input string, and the
`min`/`max` branches of `validate` require the value to be of number
type, so the declared bounds `min = 1, max = 999` are never applied: any
people string that is non-empty after trimming passes, and with valid
title and description the submit handler always reaches `addProject`
with the unary-plus coercion of that string, whatever its value. -/
theorem C10_people_bounds_unapplied (f : FormFields) (s : ProjectState) (idDraw : String)
    (hp : (jsTrim f.people).length ≠ 0)
    (ht : validate (titleValidatable f.title) = true)
    (hd : validate (descriptionValidatable f.description) = true) :
    validate (peopleValidatable f.people) = true ∧
    submitHandler f s idDraw = SubmitResult.mk
      (addProject s idDraw f.title f.description (jsUnaryPlus f.people)).1
      (addProject s idDraw f.title f.description (jsUnaryPlus f.people)).2
      (FormFields.mk "" "" "") false := by
  have hpv : validate (peopleValidatable f.people) = true := by
    unfold validate peopleValidatable
    simp [jsToString, hp]
  refine ⟨hpv, ?_⟩
  have hg : gatherUserInput f = some (f.title, f.description, jsUnaryPlus f.people) := by
    unfold gatherUserInput
    simp [ht, hd, hpv]
  unfold submitHandler
  rw [hg]

theorem C10_witness :
    validate (peopleValidatable "1000") = true ∧
    submitHandler (FormFields.mk "valid title" "valid description" "1000") initialState "0.9" =
      SubmitResult.mk
        (addProject initialState "0.9" "valid title" "valid description" (JSNum.int 1000)).1
        (addProject initialState "0.9" "valid title" "valid description" (JSNum.int 1000)).2
        (FormFields.mk "" "" "") false := by
  have h := C10_people_bounds_unapplied
    (FormFields.mk "valid title" "valid description" "1000") initialState "0.9"
    (by decide) (by decide) (by decide)
  exact ⟨h.1, h.2⟩
